import Mathlib

set_option maxHeartbeats 1000000

/-!
Verification of the scheduling core of the repository.

The embedding below models the mock-path scheduling engine
(`backend/api/calendly_service.py`, `backend/api/calendly_integration.py`),
the REST cancel/reschedule handlers (`backend/api/calendly.py`,
`backend/tools/booking_tool.py`), the adapter mode state machine, and the
tool-orchestration loop (`backend/agent/scheduling_agent.py`).

Encoding conventions:
* A time of day "HH:MM" is the number of minutes since midnight (0..1439).
  Python compares such zero-padded strings lexicographically, which agrees
  with numeric comparison of the minute values, so `appt_start <= t < appt_end`
  on strings is embedded as `≤`/`<` on `Nat` minutes.
* A calendar date "YYYY-MM-DD" is a day number (`Nat`); string equality,
  string order and set membership on dates agree with the corresponding
  operations on day numbers.  The weekday of a day number is its residue
  mod 7 (day 0 is the Monday of the epoch week), modelling
  `strftime("%A").lower()` used as a key into the working-hours table.
* `datetime` arithmetic followed by `strftime("%H:%M")` wraps at midnight,
  which is `(t + m) % 1440`.
* Values sampled from the environment (the wall clock, the random
  confirmation code, the month tag of a booking id) are passed in
  explicitly, so every definition is a pure function of its inputs.
-/

/-- Operating mode of the unified Calendly service
(`calendly_service.py`, `class CalendlyMode`). -/
inductive CalendlyMode
  | real
  | mock
  | fallback
deriving DecidableEq, Repr

/-- One entry of `schedule["appointment_types"]`: duration in minutes and the
number of consecutive raw slots the type occupies. -/
structure AppointmentType where
  duration : Nat
  slotsRequired : Nat
deriving DecidableEq, Repr

/-- A weekday's working-hours entry: opening and closing times in minutes and
an optional lunch interval `(start, end)`.  A weekday whose entry is absent or
`"closed"` is modelled as `none` in `Schedule.workingHours`. -/
structure WorkingHours where
  startMin : Nat
  endMin : Nat
  lunch : Option (Nat × Nat)
deriving DecidableEq, Repr

/-- The schedule configuration loaded from `doctor_schedule.json`:
working hours per weekday (indexed by weekday number, `none` = closed),
the appointment-type catalog, the blocked dates, and
`appointment_slot_duration` in minutes. -/
structure Schedule where
  workingHours : List (Option WorkingHours)
  appointmentTypes : List (String × AppointmentType)
  blockedDates : List Nat
  slotDuration : Nat
deriving DecidableEq, Repr

/-- Patient contact triple (`PatientInfo` in `models/schemas.py`). -/
structure PatientInfo where
  name : String
  email : String
  phone : String
deriving DecidableEq, Repr

/-- One appointment record of the ledger (the dict appended by
`_book_appointment_mock` and mutated by cancel/reschedule). -/
structure Appointment where
  bookingId : String
  apptType : String
  date : Nat
  startTime : Nat
  endTime : Nat
  patient : PatientInfo
  reason : String
  confirmationCode : String
  status : String
  createdAt : Nat
  cancelledAt : Option Nat := none
  cancellationReason : Option String := none
  previousDate : Option Nat := none
  previousTime : Option Nat := none
  rescheduledAt : Option Nat := none
  source : String := "mock"
deriving DecidableEq, Repr

/-- `CalendlyService._add_minutes_to_time`: parse "HH:MM", add a timedelta and
re-format with `strftime("%H:%M")`, which drops whole days (wraps at
midnight). -/
def addMinutesToTime (t m : Nat) : Nat := (t + m) % 1440

/-- Lookup in the `schedule["appointment_types"]` dict. -/
def lookupType (sch : Schedule) (ty : String) : Option AppointmentType :=
  (sch.appointmentTypes.find? (fun p => p.1 == ty)).map (fun p => p.2)

/-- Weekday index of a day number (day 0 is a Monday). -/
def weekdayOf (d : Nat) : Nat := d % 7

/-- `CalendlyService._get_working_hours`: look the weekday name up in
`schedule["working_hours"]`; a missing or `"closed"` entry yields `none`. -/
def getWorkingHours (sch : Schedule) (d : Nat) : Option WorkingHours :=
  sch.workingHours.getD (weekdayOf d) none

/-- The inner test of `CalendlyService._is_slot_available`: an existing
appointment blocks a check-point `t` when it is on the same date, is not
cancelled, and `appt_start <= t < appt_end`. -/
def slotBlockedBy (d t : Nat) (a : Appointment) : Bool :=
  a.date == d && a.status != "cancelled" &&
    decide (a.startTime ≤ t) && decide (t < a.endTime)

/-- `CalendlyService._is_slot_available` (calendly_service.py, lines 557-573):
for each `i < slots_required`, the check-point `start + i * slot_duration`
must lie in no existing non-cancelled appointment's interval on that date. -/
def isSlotAvailable (sch : Schedule) (led : List Appointment)
    (d s slotsRequired : Nat) : Bool :=
  (List.range slotsRequired).all fun i =>
    led.all fun a => !(slotBlockedBy d (addMinutesToTime s (i * sch.slotDuration)) a)

/-- The inner test of `MockCalendlyAPI._is_slot_available`
(calendly_integration.py): unlike the service version it does NOT filter out
cancelled appointments. -/
def slotBlockedByNoStatus (d t : Nat) (a : Appointment) : Bool :=
  a.date == d && decide (a.startTime ≤ t) && decide (t < a.endTime)

/-- `MockCalendlyAPI._is_slot_available` (calendly_integration.py, lines
120-136): same loop as the service version but with no status filter, so a
cancelled appointment still blocks its old check-points. -/
def isSlotAvailableIntegration (sch : Schedule) (led : List Appointment)
    (d s slotsRequired : Nat) : Bool :=
  (List.range slotsRequired).all fun i =>
    led.all fun a => !(slotBlockedByNoStatus d (addMinutesToTime s (i * sch.slotDuration)) a)

/-- The while-loop of `_generate_time_slots`, with explicit fuel (the Python
loop has no bound of its own).  `next` wraps at midnight exactly as
`(current_dt + timedelta).time()` does; the loop breaks when
`next_time > end_time`, jumps to lunch-end when the candidate's occupied
interval meets the lunch interval, and otherwise emits the candidate. -/
def genSlotsAux (g endMin : Nat) (lunch : Option (Nat × Nat)) :
    Nat → Nat → List Nat
  | 0, _ => []
  | fuel + 1, current =>
    let next := addMinutesToTime current g
    if endMin < next then []
    else
      match lunch with
      | some (ls, le) =>
        if !(decide (le ≤ current) || decide (next ≤ ls)) then
          genSlotsAux g endMin lunch fuel le
        else
          current :: genSlotsAux g endMin lunch fuel next
      | none => current :: genSlotsAux g endMin lunch fuel next

/-- Fuel for `genSlotsAux`; large enough for every terminating run considered
in this development. -/
def genFuel : Nat := 4000

/-- `CalendlyService._generate_time_slots` (calendly_service.py, lines
523-555) = `MockCalendlyAPI._generate_time_slots` (calendly_integration.py,
lines 86-118): the raw slot grid of one day. -/
def generateTimeSlots (sch : Schedule) (wh : WorkingHours) : List Nat :=
  genSlotsAux sch.slotDuration wh.endMin wh.lunch genFuel wh.startMin

/-- The body of `AvailabilityResponse` as produced by the mock path. -/
structure AvailabilityResponseM where
  date : Nat
  appointmentType : String
  availableSlots : List (Nat × Nat)
  totalAvailable : Nat
deriving DecidableEq, Repr

/-- An empty availability response for a date/type pair. -/
def emptyAvailability (d : Nat) (ty : String) : AvailabilityResponseM :=
  { date := d, appointmentType := ty, availableSlots := [], totalAvailable := 0 }

/-- `CalendlyService._get_availability_mock` (calendly_service.py, lines
203-265).  Order of the checks as in the source: unknown appointment type
raises `ValueError` first; then a past date, a blocked date, or a closed
weekday each yield an empty response; otherwise the raw grid is filtered by
`_is_slot_available` and paired with duration-based end times. -/
def getAvailabilityMock (sch : Schedule) (led : List Appointment)
    (today d : Nat) (ty : String) : Except String AvailabilityResponseM :=
  match lookupType sch ty with
  | none => Except.error ("Invalid appointment type: " ++ ty)
  | some t =>
    if d < today then Except.ok (emptyAvailability d ty)
    else if sch.blockedDates.contains d then Except.ok (emptyAvailability d ty)
    else
      match getWorkingHours sch d with
      | none => Except.ok (emptyAvailability d ty)
      | some wh =>
        let avail := (generateTimeSlots sch wh).filter
          (fun s => isSlotAvailable sch led d s t.slotsRequired)
        Except.ok
          { date := d, appointmentType := ty,
            availableSlots := avail.map (fun s => (s, addMinutesToTime s t.duration)),
            totalAvailable := avail.length }

/-- Environment values consumed by one booking: the `%Y%m` month tag of the
wall clock, the random confirmation code, and the creation timestamp. -/
structure BookingEnv where
  monthTag : String
  code : String
  now : Nat
deriving DecidableEq, Repr

/-- Python's `str.zfill(4)`. -/
def zfill4 (n : Nat) : String :=
  let s := toString n
  if 4 ≤ s.length then s
  else String.mk (List.replicate (4 - s.length) '0') ++ s

/-- `CalendlyService._generate_booking_id`: month tag plus the zero-padded
successor of the current ledger length. -/
def mkBookingId (monthTag : String) (count : Nat) : String :=
  "APPT-" ++ monthTag ++ "-" ++ zfill4 (count + 1)

/-- The body of `BookingResponse`. -/
structure BookingResponseM where
  bookingId : String
  status : String
  confirmationCode : String
  details : Appointment
deriving DecidableEq, Repr

/-- `CalendlyService._book_appointment_mock` (calendly_service.py, lines
354-410): validate the appointment type, re-check `_is_slot_available`,
compute the end time, synthesize ids, append a confirmed record.  Note the
source performs NO validation of working hours, blocked dates, past dates or
grid alignment of `start_time`. -/
def bookMock (sch : Schedule) (led : List Appointment) (ty : String)
    (d s : Nat) (patient : PatientInfo) (reason : String) (env : BookingEnv) :
    Except String (BookingResponseM × List Appointment) :=
  match lookupType sch ty with
  | none => Except.error ("Invalid appointment type: " ++ ty)
  | some t =>
    if !(isSlotAvailable sch led d s t.slotsRequired) then
      Except.error "The selected time slot is no longer available"
    else
      let endT := addMinutesToTime s t.duration
      let bid := mkBookingId env.monthTag led.length
      let appt : Appointment :=
        { bookingId := bid, apptType := ty, date := d, startTime := s,
          endTime := endT, patient := patient, reason := reason,
          confirmationCode := env.code, status := "confirmed",
          createdAt := env.now, source := "mock" }
      Except.ok
        ({ bookingId := bid, status := "confirmed",
           confirmationCode := env.code, details := appt },
         led ++ [appt])

/-- Update the first element satisfying `p` in place, as the
`for i, appt in enumerate(...)` loops of the source do. -/
def updateFirst (p : Appointment → Bool) (f : Appointment → Appointment) :
    List Appointment → List Appointment
  | [] => []
  | a :: rest => if p a then f a :: rest else a :: updateFirst p f rest

/-- The in-place mutation performed by `CalendlyService.cancel_appointment`:
flip the status, stamp `cancelled_at` with the current time, and record the
reason only when one is given (Python's `if reason:`). -/
def cancelUpdate (reason : Option String) (now : Nat) (a : Appointment) :
    Appointment :=
  match reason with
  | some r => { a with status := "cancelled", cancelledAt := some now,
                       cancellationReason := some r }
  | none => { a with status := "cancelled", cancelledAt := some now }

/-- `CalendlyService.cancel_appointment` (calendly_service.py, lines 421-447)
on the mock/fallback path: find the first record with the booking id, update
it in place unconditionally (no already-cancelled guard), return whether a
record was found.  The REAL-mode remote-cancel branch is not taken on this
path. -/
def cancelService (led : List Appointment) (bid : String)
    (reason : Option String) (now : Nat) : Bool × List Appointment :=
  if led.any (fun a => a.bookingId == bid) then
    (true, updateFirst (fun a => a.bookingId == bid) (cancelUpdate reason now) led)
  else (false, led)

/-- Outcome of the `DELETE /cancel/{booking_id}` handler. -/
inductive CancelOutcome
  | notFound
  | alreadyCancelled (cancelledAt : Option Nat)
  | cancelled (cancelledAt : Option Nat)
deriving DecidableEq, Repr

/-- `cancel_appointment` endpoint (calendly.py, lines 217-273): look the
record up first; if it is already cancelled return early WITHOUT touching the
ledger; otherwise delegate to the service-level cancel and report the fresh
`cancelled_at`. -/
def cancelEndpoint (led : List Appointment) (bid : String)
    (reason : Option String) (now : Nat) : CancelOutcome × List Appointment :=
  match led.find? (fun a => a.bookingId == bid) with
  | none => (CancelOutcome.notFound, led)
  | some a =>
    if a.status == "cancelled" then
      (CancelOutcome.alreadyCancelled a.cancelledAt, led)
    else
      let res := cancelService led bid reason now
      match res.2.find? (fun x => x.bookingId == bid) with
      | some a2 => (CancelOutcome.cancelled a2.cancelledAt, res.2)
      | none => (CancelOutcome.notFound, res.2)

/-- Outcome of the reschedule tool / endpoint. -/
inductive ReschedOutcome
  | notFound
  | cancelledAppt
  | invalidType
  | slotUnavailable
  | rescheduled
deriving DecidableEq, Repr

/-- The in-place mutation performed by a successful reschedule: overwrite
date/start/end and stamp the audit fields from the record's previous
values. -/
def reschedUpdate (newDate newS newEnd now : Nat) (a : Appointment) :
    Appointment :=
  { a with date := newDate, startTime := newS, endTime := newEnd,
           rescheduledAt := some now, previousDate := some a.date,
           previousTime := some a.startTime }

/-- `reschedule_appointment` (booking_tool.py, lines 166-250; the endpoint in
calendly.py, lines 132-214, has the same logic): look the record up, reject a
cancelled record, look its type up, run `CalendlyService._is_slot_available`
for the new date/time over the WHOLE ledger (the record being rescheduled is
not excluded), and on success overwrite the first matching record. -/
def rescheduleTool (sch : Schedule) (led : List Appointment) (bid : String)
    (newDate newS now : Nat) : ReschedOutcome × List Appointment :=
  match led.find? (fun a => a.bookingId == bid) with
  | none => (ReschedOutcome.notFound, led)
  | some a =>
    if a.status == "cancelled" then (ReschedOutcome.cancelledAppt, led)
    else
      match lookupType sch a.apptType with
      | none => (ReschedOutcome.invalidType, led)
      | some t =>
        if !(isSlotAvailable sch led newDate newS t.slotsRequired) then
          (ReschedOutcome.slotUnavailable, led)
        else
          let newEnd := addMinutesToTime newS t.duration
          (ReschedOutcome.rescheduled,
           updateFirst (fun x => x.bookingId == bid)
             (reschedUpdate newDate newS newEnd now) led)

/-- One sequentially executed mock-path ledger operation. -/
inductive LedgerOp
  | book (ty : String) (d s : Nat) (patient : PatientInfo) (reason : String)
      (env : BookingEnv)
  | cancel (bid : String) (reason : Option String) (now : Nat)
  | resched (bid : String) (newDate newS now : Nat)
deriving DecidableEq, Repr

/-- Effect of one operation on the ledger.  A failed booking (unknown type or
unavailable slot) raises in the source and leaves the ledger unchanged, as do
the failure branches of cancel and reschedule. -/
def applyOp (sch : Schedule) (led : List Appointment) : LedgerOp → List Appointment
  | LedgerOp.book ty d s patient reason env =>
    match bookMock sch led ty d s patient reason env with
    | Except.ok r => r.2
    | Except.error _ => led
  | LedgerOp.cancel bid reason now => (cancelService led bid reason now).2
  | LedgerOp.resched bid newDate newS now =>
    (rescheduleTool sch led bid newDate newS now).2

/-- Run a sequence of operations starting from the empty ledger. -/
def runOps (sch : Schedule) (ops : List LedgerOp) : List Appointment :=
  ops.foldl (applyOp sch) []

/-- The adapter-relevant state of `CalendlyService`: the operating mode and
the `_initialized` flag. -/
structure ServiceState where
  mode : CalendlyMode
  inited : Bool
deriving DecidableEq, Repr

/-- The state set up by `CalendlyService.__init__`: MOCK mode, not yet
probed. -/
def freshServiceState : ServiceState :=
  { mode := CalendlyMode.mock, inited := false }

/-- `CalendlyService.initialize` (calendly_service.py, lines 83-115).
`configured` is `client.is_configured`; `probe` is the outcome of
`verify_connection` (`none` models an exception).  A second call is a no-op.
A failed or erroring probe yields MOCK, never FALLBACK. -/
def initStep (st : ServiceState) (configured : Bool) (probe : Option Bool) :
    ServiceState :=
  if st.inited then st
  else
    { mode :=
        if configured then
          match probe with
          | some true => CalendlyMode.real
          | _ => CalendlyMode.mock
        else CalendlyMode.mock,
      inited := true }

/-- The shared try/except shape of `CalendlyService.get_availability`
(calendly_service.py, lines 145-156) and `CalendlyService.book_appointment`
(lines 269-280): in REAL mode attempt the real path (`realOutcome`; `none`
models a raised `CalendlyAPIError`), on a provider error latch the mode to
FALLBACK and serve the same request from the mock path; in any other mode go
straight to the mock path.  The returned flag records whether the answer came
from the real path. -/
def serviceCall {α : Type} (st : ServiceState) (realOutcome : Option α)
    (mockOutcome : α) : ServiceState × (Bool × α) :=
  match st.mode with
  | CalendlyMode.real =>
    match realOutcome with
    | some r => (st, (true, r))
    | none => ({ st with mode := CalendlyMode.fallback }, (false, mockOutcome))
  | _ => (st, (false, mockOutcome))

/-- One adapter-level event: an `initialize` call or a
`get_availability`/`book_appointment` call with its environment oracles. -/
inductive AdapterOp (α : Type)
  | initOp (configured : Bool) (probe : Option Bool)
  | call (realOutcome : Option α) (mockOutcome : α)
deriving DecidableEq, Repr

/-- Apply one adapter event; `call` events additionally report the
origin-flagged response. -/
def adapterStep {α : Type} (st : ServiceState) :
    AdapterOp α → ServiceState × Option (Bool × α)
  | AdapterOp.initOp c p => (initStep st c p, none)
  | AdapterOp.call ro mo =>
    let r := serviceCall st ro mo
    (r.1, some r.2)

/-- Run a sequence of adapter events, collecting each call's origin-flagged
response. -/
def runAdapter {α : Type} (st : ServiceState) :
    List (AdapterOp α) → ServiceState × List (Option (Bool × α))
  | [] => (st, [])
  | op :: rest =>
    let r := adapterStep st op
    let rr := runAdapter r.1 rest
    (rr.1, r.2 :: rr.2)

/-- One model reply as normalised by `_call_openai`/`_call_anthropic`:
the text content and the names of the requested tool calls. -/
structure LlmReply where
  content : String
  toolCalls : List String
deriving DecidableEq, Repr

/-- Result of `SchedulingAgent.process_message`: the three return shapes of
the source (tool-free reply, wrap-up reply after tools with the round's tool
names in the metadata, and the max-iterations apology with
`metadata.error == "max_iterations_reached"`). -/
inductive AgentOutcome
  | finalDirect (content : String) (iters : Nat)
  | finalAfterTools (content : String) (iters : Nat) (toolNames : List String)
  | maxIterationsReached (content : String) (iters : Nat)
deriving DecidableEq, Repr

/-- The fixed apology returned when the loop exhausts its 5 rounds
(scheduling_agent.py, line 359).  `Char.ofNat 39` is the apostrophe of the
Python literal. -/
def apologyMessage : String :=
  "I apologize, but I" ++ String.singleton (Char.ofNat 39) ++
    "m having trouble processing your request. Could you please rephrase or try again?"

/-- The `while iterations < max_iterations` loop of
`SchedulingAgent.process_message` (scheduling_agent.py, lines 322-364).
`withTools i` is the model's reply to the round-`i` call made with the tool
schema, `noTools i` the reply to the round-`i` wrap-up call made without it.
Tool execution between the two calls only feeds the transcript, which the
reply oracles already absorb. -/
def processLoopAux (withTools noTools : Nat → LlmReply) :
    Nat → Nat → AgentOutcome
  | 0, iters => AgentOutcome.maxIterationsReached apologyMessage iters
  | fuel + 1, iters =>
    let i := iters + 1
    let r := withTools i
    if r.toolCalls.isEmpty then AgentOutcome.finalDirect r.content i
    else
      let rf := noTools i
      if rf.toolCalls.isEmpty then AgentOutcome.finalAfterTools rf.content i r.toolCalls
      else processLoopAux withTools noTools fuel i

/-- `max_iterations = 5` (scheduling_agent.py, line 322). -/
def maxIterationsBound : Nat := 5

/-- `SchedulingAgent.process_message`, starting the loop at iteration 0. -/
def processMessage (withTools noTools : Nat → LlmReply) : AgentOutcome :=
  processLoopAux withTools noTools maxIterationsBound 0

/-- The keys of `SchedulingAgent.tool_functions` (scheduling_agent.py, lines
55-59): only three handlers are registered. -/
def toolFunctionNames : List String :=
  ["check_availability", "get_next_available_slots", "book_appointment"]

/-- The tool names advertised to the model via
`self.tools = AVAILABILITY_TOOLS + BOOKING_TOOLS` (availability_tool.py and
booking_tool.py schema lists), which are also the six required tools of the
spec. -/
def advertisedToolNames : List String :=
  ["check_availability", "get_next_available_slots", "book_appointment",
   "get_appointment_by_confirmation", "cancel_appointment",
   "reschedule_appointment"]

/-- Result of `_execute_tool`: either the handler's payload or the structured
error dict `{"error": ...}`. -/
inductive ToolExecResult
  | ok (payload : String)
  | structuredError (msg : String)
deriving DecidableEq, Repr

/-- `SchedulingAgent._execute_tool` (scheduling_agent.py, lines 170-180):
unknown names yield the structured `Unknown tool` error; a registered
handler is called and any exception it raises is caught into the same
structured-error shape (`handlers` maps a name to its handler's outcome,
`Except.error` modelling a raised exception). -/
def executeTool (handlers : String → Except String String) (name : String) :
    ToolExecResult :=
  if toolFunctionNames.contains name then
    match handlers name with
    | Except.ok r => ToolExecResult.ok r
    | Except.error e => ToolExecResult.structuredError e
  else ToolExecResult.structuredError ("Unknown tool: " ++ name)

/-- Spec-worded availability predicate (for comparison with the code): every
check-point lies outside every NON-CANCELLED appointment's half-open
interval on the date. -/
def specAvailActive (sch : Schedule) (led : List Appointment)
    (d s n : Nat) : Prop :=
  ∀ i < n, ∀ a ∈ led, a.date = d → a.status ≠ "cancelled" →
    ¬(a.startTime ≤ addMinutesToTime s (i * sch.slotDuration) ∧
      addMinutesToTime s (i * sch.slotDuration) < a.endTime)

/-- Like `specAvailActive` but counting every appointment regardless of
status (what `MockCalendlyAPI._is_slot_available` actually implements). -/
def specAvailAll (sch : Schedule) (led : List Appointment)
    (d s n : Nat) : Prop :=
  ∀ i < n, ∀ a ∈ led,  a.date = d →
    ¬(a.startTime ≤ addMinutesToTime s (i * sch.slotDuration) ∧
      addMinutesToTime s (i * sch.slotDuration) < a.endTime)

/-- A catalog entry is well-sized: positive duration that fits in the block
of `slotsRequired` raw slots. -/
def typeFits (g : Nat) (t : AppointmentType) : Bool :=
  decide (0 < t.duration) && decide (t.duration ≤ t.slotsRequired * g)

/-- Every catalog entry is well-sized. -/
def schedTypesOK (sch : Schedule) : Bool :=
  sch.appointmentTypes.all (fun p => typeFits sch.slotDuration p.2)

/-- A requested start time is on the global slot grid and the whole occupied
block fits strictly inside the day. -/
def startFits (g : Nat) (t : AppointmentType) (s : Nat) : Bool :=
  (s % g == 0) && decide (s + t.slotsRequired * g ≤ 1440) &&
    decide (s + t.duration < 1440)

/-- Grid-alignment side condition of one ledger operation: the start time a
book or reschedule passes in is grid-aligned and fits in the day for the
relevant catalog entry (for a reschedule, whose type depends on the stored
record, for every catalog entry). -/
def opFits (sch : Schedule) : LedgerOp → Bool
  | LedgerOp.book ty _ s _ _ _ =>
    match lookupType sch ty with
    | some t => startFits sch.slotDuration t s
    | none => true
  | LedgerOp.cancel _ _ _ => true
  | LedgerOp.resched _ _ s _ =>
    sch.appointmentTypes.all (fun p => startFits sch.slotDuration p.2 s)

/-- All operations of a run satisfy `opFits`. -/
def opsFit (sch : Schedule) (ops : List LedgerOp) : Bool :=
  ops.all (opFits sch)

/-- Per-record well-formedness maintained by grid-aligned runs: an active
record sits on the grid and has a non-empty interval inside the day. -/
def wfAppt (g : Nat) (a : Appointment) : Prop :=
  a.status ≠ "cancelled" →
    a.startTime % g = 0 ∧ a.startTime < a.endTime ∧ a.endTime ≤ 1440

/-- The core safety relation between two records: if both are active and on
the same date, their half-open intervals do not overlap. -/
def disjointAppts (a b : Appointment) : Prop :=
  a.status ≠ "cancelled" → b.status ≠ "cancelled" → a.date = b.date →
    a.endTime ≤ b.startTime ∨ b.endTime ≤ a.startTime

/-- The ledger invariant: every record is well-formed and the records are
pairwise conflict-free. -/
def ledgerInv (g : Nat) (led : List Appointment) : Prop :=
  (∀ a ∈ led, wfAppt g a) ∧ led.Pairwise disjointAppts

/-- Monday working hours of the concrete scenario: 09:00-17:00, lunch
12:00-13:00. -/
def whMon : WorkingHours :=
  { startMin := 540, endMin := 1020, lunch := some (720, 780) }

/-- Concrete schedule used by the witnesses: Monday open, the four catalog
types of the repository with the spec's durations, slot duration 30. -/
def schGrid : Schedule :=
  { workingHours := [some whMon, none, none, none, none, none, none],
    appointmentTypes :=
      [("consultation", { duration := 30, slotsRequired := 1 }),
       ("followup", { duration := 15, slotsRequired := 1 }),
       ("physical", { duration := 45, slotsRequired := 2 }),
       ("specialist", { duration := 60, slotsRequired := 2 })],
    blockedDates := [50],
    slotDuration := 30 }

/-- Concrete patient and booking environments for the witnesses. -/
def patA : PatientInfo :=
  { name := "Ada Lovelace", email := "ada@example.org", phone := "+1555000" }

/-- Booking environment of the first concrete booking. -/
def envA : BookingEnv := { monthTag := "202601", code := "AAAAAA", now := 10 }

/-- Booking environment of the second concrete booking. -/
def envB : BookingEnv := { monthTag := "202601", code := "BBBBBB", now := 20 }

/-- Ledger obtained by booking a 45-minute physical at 10:00 on day 100
(a Monday, since 100 % 7 = 2 is ignored here: booking never checks the
weekday). -/
def ledPhys : List Appointment :=
  runOps schGrid [LedgerOp.book "physical" 100 600 patA "checkup" envA]

/-- Working hours whose closing time is within one slot of midnight:
23:10-23:30 with a 50-minute granularity (see `schMidnight`). -/
def whMid : WorkingHours := { startMin := 1390, endMin := 1410, lunch := none }

/-- A schedule configuration on which `_generate_time_slots` wraps past
midnight: closing 23:30 with 50-minute slots. -/
def schMidnight : Schedule :=
  { workingHours := [some whMid, none, none, none, none, none, none],
    appointmentTypes := [("consultation", { duration := 30, slotsRequired := 1 })],
    blockedDates := [],
    slotDuration := 50 }

/-- The record produced by the concrete physical booking of `ledPhys`
(what `runOps` computes for it). -/
def apptPhys : Appointment :=
  { bookingId := "APPT-202601-0001", apptType := "physical", date := 100,
    startTime := 600, endTime := 645, patient := patA, reason := "checkup",
    confirmationCode := "AAAAAA", status := "confirmed", createdAt := 10 }

/-- An already-cancelled record with a recorded cancellation timestamp, used
to probe cancel idempotence. -/
def cancelledAppt : Appointment :=
  { bookingId := "APPT-202601-0001", apptType := "consultation", date := 100,
    startTime := 600, endTime := 630, patient := patA, reason := "checkup",
    confirmationCode := "CCCCCC", status := "cancelled", createdAt := 1,
    cancelledAt := some 5 }

theorem isSlotAvailable_iff_spec (sch : Schedule) (led : List Appointment)
    (d s n : Nat) :
    isSlotAvailable sch led d s n = true ↔ specAvailActive sch led d s n := by
  constructor
  · intro h i hi a ha hd hs
    have hh := List.all_eq_true.mp
      (List.all_eq_true.mp h i (List.mem_range.mpr hi)) a ha
    simp [slotBlockedBy, hd, hs, bne_iff_ne] at hh
    omega
  · intro h
    refine List.all_eq_true.mpr (fun i hi => List.all_eq_true.mpr (fun a ha => ?_))
    by_cases hd : a.date = d
    · by_cases hs : a.status = "cancelled"
      · simp [slotBlockedBy, hs]
      · have hp := h i (List.mem_range.mp hi) a ha hd hs
        simp [slotBlockedBy, hd, bne_iff_ne, hs]
        omega
    · simp [slotBlockedBy, hd]

theorem isSlotAvailableIntegration_iff_spec (sch : Schedule)
    (led : List Appointment) (d s n : Nat) :
    isSlotAvailableIntegration sch led d s n = true ↔ specAvailAll sch led d s n := by
  constructor
  · intro h i hi a ha hd
    have hh := List.all_eq_true.mp
      (List.all_eq_true.mp h i (List.mem_range.mpr hi)) a ha
    simp [slotBlockedByNoStatus, hd] at hh
    omega
  · intro h
    refine List.all_eq_true.mpr (fun i hi => List.all_eq_true.mpr (fun a ha => ?_))
    by_cases hd : a.date = d
    · have hp := h i (List.mem_range.mp hi) a ha hd
      simp [slotBlockedByNoStatus, hd]
      omega
    · simp [slotBlockedByNoStatus, hd]

/-- C2 counterexample: the claim requires that a cancelled appointment never
blocks a slot on BOTH implementations of the availability check.  On the
`MockCalendlyAPI` path (the one behind the `check_availability` tool) a
ledger whose only record is cancelled still reports the old start time
unavailable, while the `CalendlyService` path reports it available. -/
theorem c2_counterexample_cancelled_blocks :
    cancelledAppt.status = "cancelled" ∧
    isSlotAvailableIntegration schGrid [cancelledAppt] 100 600 1 = false ∧
    isSlotAvailable schGrid [cancelledAppt] 100 600 1 = true := by decide

/-- C2 (amended): the `CalendlyService` availability check returns available
iff all N check-points lie outside every NON-CANCELLED appointment's
half-open interval on the date; the `MockCalendlyAPI` check instead returns
available iff the check-points lie outside EVERY appointment's interval,
cancelled ones included.  Concretely, after booking a 45-minute physical
(2 slots) at 10:00, a check at 10:30 reports unavailable for any slot
count on the service path. -/
theorem c2_availability_check_both_paths (sch : Schedule)
    (led : List Appointment) (d s n : Nat) :
    (isSlotAvailable sch led d s n = true ↔ specAvailActive sch led d s n) ∧
    (isSlotAvailableIntegration sch led d s n = true ↔ specAvailAll sch led d s n) ∧
    (∀ m : Nat, isSlotAvailable schGrid ledPhys 100 630 (m + 1) = false) := by
  refine ⟨isSlotAvailable_iff_spec sch led d s n,
    isSlotAvailableIntegration_iff_spec sch led d s n, fun m => ?_⟩
  cases hb : isSlotAvailable schGrid ledPhys 100 630 (m + 1) with
  | false => rfl
  | true =>
    exact absurd (by decide)
      ((isSlotAvailable_iff_spec schGrid ledPhys 100 630 (m + 1)).mp hb 0
        (Nat.succ_pos m) apptPhys (by decide) (by decide) (by decide))

/-- C2 witness: instantiating the amended theorem at the concrete physical
scenario, the booked 10:00 physical makes 10:30 unavailable for a
2-slot check. -/
theorem c2_availability_check_both_paths_witness :
    isSlotAvailable schGrid ledPhys 100 630 2 = false :=
  (c2_availability_check_both_paths schGrid ledPhys 100 630 2).2.2 1

/-- C4: the orchestrator advertises six tools to the model, but
`tool_functions` registers handlers for only three of them; for
`cancel_appointment`, `reschedule_appointment` and
`get_appointment_by_confirmation` the uniform dispatch returns the
structured unknown-tool error no matter what the handlers would do,
although the repository advertises them in its tool schema and its own test
(`test_agent_mocked.test_cancel_appointment_tool`) expects the cancel
handler to be invoked. -/
theorem c4_tool_dispatch_gap :
    advertisedToolNames.filter (fun n => toolFunctionNames.contains n) =
      ["check_availability", "get_next_available_slots", "book_appointment"] ∧
    (∀ handlers, executeTool handlers "cancel_appointment" =
      ToolExecResult.structuredError ("Unknown tool: " ++ "cancel_appointment")) ∧
    (∀ handlers, executeTool handlers "reschedule_appointment" =
      ToolExecResult.structuredError ("Unknown tool: " ++ "reschedule_appointment")) ∧
    (∀ handlers, executeTool handlers "get_appointment_by_confirmation" =
      ToolExecResult.structuredError ("Unknown tool: " ++ "get_appointment_by_confirmation")) := by
  exact ⟨by decide, fun h => rfl, fun h => rfl, fun h => rfl⟩

/-- C6: the availability query's edge-case policy.  An appointment type
absent from the catalog raises the invalid-type error (checked first, so it
wins even on past or blocked dates); for a known type, a date strictly
before today, or a blocked date, yields a normal empty response with
`total_available = 0`. -/
theorem c6_edge_case_policy (sch : Schedule) (led : List Appointment)
    (today d : Nat) (ty : String) :
    (lookupType sch ty = none →
      getAvailabilityMock sch led today d ty =
        Except.error ("Invalid appointment type: " ++ ty)) ∧
    (∀ t, lookupType sch ty = some t → d < today →
      getAvailabilityMock sch led today d ty = Except.ok (emptyAvailability d ty)) ∧
    (∀ t, lookupType sch ty = some t → ¬ d < today →
      d ∈ sch.blockedDates →
      getAvailabilityMock sch led today d ty = Except.ok (emptyAvailability d ty)) := by
  refine ⟨fun h => ?_, fun t ht hd => ?_, fun t ht hd hb => ?_⟩
  · simp [getAvailabilityMock, h]
  · simp [getAvailabilityMock, ht, hd]
  · simp [getAvailabilityMock, ht, hd, hb]

/-- C6 witness: an unknown type errors, a past date (55 before today 60)
yields the empty response, and the blocked date 50 yields the empty
response. -/
theorem c6_edge_case_policy_witness :
    getAvailabilityMock schGrid [] 60 55 "nosuch" =
      Except.error ("Invalid appointment type: " ++ "nosuch") ∧
    getAvailabilityMock schGrid [] 60 55 "consultation" =
      Except.ok (emptyAvailability 55 "consultation") ∧
    getAvailabilityMock schGrid [] 10 50 "consultation" =
      Except.ok (emptyAvailability 50 "consultation") :=
  ⟨(c6_edge_case_policy schGrid [] 60 55 "nosuch").1 (by decide),
   (c6_edge_case_policy schGrid [] 60 55 "consultation").2.1
     { duration := 30, slotsRequired := 1 } (by decide) (by decide),
   (c6_edge_case_policy schGrid [] 10 50 "consultation").2.2
     { duration := 30, slotsRequired := 1 } (by decide) (by decide) (by decide)⟩

/-- C10: the mock booking path validates only the appointment type and the
point-conflict check.  On an empty ledger, ANY date and ANY start time (past
dates, closed weekdays, off-grid times such as 23:00) are accepted: the
booking succeeds, appends a confirmed record, and returns a booking id and
confirmation code — the schedule's working hours and blocked dates are
quantified over and never consulted. -/
theorem c10_book_accepts_arbitrary_times (sch : Schedule) (ty : String)
    (t : AppointmentType) (d s : Nat) (patient : PatientInfo) (reason : String)
    (env : BookingEnv) (h : lookupType sch ty = some t) :
    ∃ resp led1,
      bookMock sch [] ty d s patient reason env = Except.ok (resp, led1) ∧
      resp.status = "confirmed" ∧
      resp.bookingId = mkBookingId env.monthTag 0 ∧
      resp.confirmationCode = env.code ∧
      led1 = [resp.details] ∧
      resp.details.status = "confirmed" ∧
      resp.details.date = d ∧ resp.details.startTime = s := by
  have hav : isSlotAvailable sch [] d s t.slotsRequired = true := by
    simp [isSlotAvailable]
  refine ⟨{ bookingId := mkBookingId env.monthTag 0, status := "confirmed",
            confirmationCode := env.code,
            details := { bookingId := mkBookingId env.monthTag 0, apptType := ty,
                         date := d, startTime := s,
                         endTime := addMinutesToTime s t.duration,
                         patient := patient, reason := reason,
                         confirmationCode := env.code, status := "confirmed",
                         createdAt := env.now, source := "mock" } },
          [{ bookingId := mkBookingId env.monthTag 0, apptType := ty, date := d,
             startTime := s, endTime := addMinutesToTime s t.duration,
             patient := patient, reason := reason, confirmationCode := env.code,
             status := "confirmed", createdAt := env.now, source := "mock" }],
          ?_, rfl, rfl, rfl, rfl, rfl, rfl, rfl⟩
  simp [bookMock, h, hav]

theorem updateFirst_find? (p : Appointment → Bool) (f : Appointment → Appointment)
    (hp : ∀ x, p x = true → p (f x) = true) :
    ∀ (l : List Appointment) (a : Appointment),
      l.find? p = some a → (updateFirst p f l).find? p = some (f a) := by
  intro l
  induction l with
  | nil => intro a h; simp at h
  | cons b rest ih =>
    intro a h
    by_cases hb : p b = true
    · rw [List.find?_cons_of_pos _ hb] at h
      injection h with h
      subst h
      simp [updateFirst, hb, List.find?_cons_of_pos, hp b hb]
    · rw [List.find?_cons_of_neg _ hb] at h
      simp only [updateFirst]
      rw [if_neg hb, List.find?_cons_of_neg _ hb]
      exact ih a h

/-- C9 counterexample: the claim requires every cancel entry point to leave
`cancelled_at` unchanged on a second cancel.  The service-level
`cancel_appointment` (used by the cancel tool) has no already-cancelled
guard: cancelling the already-cancelled record again at clock 9 overwrites
its recorded timestamp 5 with 9. -/
theorem c9_counterexample_service_restamps :
    cancelledAppt.status = "cancelled" ∧
    cancelledAppt.cancelledAt = some 5 ∧
    (cancelService [cancelledAppt] "APPT-202601-0001" none 9).1 = true ∧
    (cancelService [cancelledAppt] "APPT-202601-0001" none 9).2 =
      [{ cancelledAppt with cancelledAt := some 9 }] := by decide

/-- C9 (amended): the DELETE endpoint is idempotent — on an already-cancelled
record it returns early and leaves the ledger (hence `cancelled_at`)
unchanged; the service-level cancel instead always succeeds on a found
record and re-stamps `cancelled_at` with the current clock value,
deterministically in its inputs. -/
theorem c9_cancel_idempotence_split (led : List Appointment) (bid : String)
    (reason : Option String) (now : Nat) (a : Appointment) :
    (led.find? (fun x => x.bookingId == bid) = some a → a.status = "cancelled" →
      cancelEndpoint led bid reason now =
        (CancelOutcome.alreadyCancelled a.cancelledAt, led)) ∧
    (led.find? (fun x => x.bookingId == bid) = some a →
      (cancelService led bid reason now).1 = true ∧
      (cancelService led bid reason now).2.find? (fun x => x.bookingId == bid) =
        some (cancelUpdate reason now a) ∧
      (cancelUpdate reason now a).cancelledAt = some now) := by
  constructor
  · intro hf hs
    simp [cancelEndpoint, hf, hs]
  · intro hf
    have hmem := List.mem_of_find?_eq_some hf
    have hpa := List.find?_some hf
    have hany : led.any (fun x => x.bookingId == bid) = true :=
      List.any_eq_true.mpr ⟨a, hmem, hpa⟩
    refine ⟨by simp [cancelService, hany], ?_, by cases reason <;> simp [cancelUpdate]⟩
    simp only [cancelService, hany, if_pos]
    exact updateFirst_find? _ _
      (fun x hx => by cases reason <;> simpa [cancelUpdate] using hx) led a hf

/-- C9 witness: on the concrete already-cancelled record, the endpoint
returns the early already-cancelled outcome with the old timestamp and an
unchanged ledger, while the service cancel re-stamps to the new clock 9. -/
theorem c9_cancel_idempotence_split_witness :
    cancelEndpoint [cancelledAppt] "APPT-202601-0001" none 9 =
      (CancelOutcome.alreadyCancelled cancelledAppt.cancelledAt, [cancelledAppt]) ∧
    ((cancelService [cancelledAppt] "APPT-202601-0001" none 9).1 = true ∧
     (cancelService [cancelledAppt] "APPT-202601-0001" none 9).2.find?
        (fun x => x.bookingId == "APPT-202601-0001") =
       some (cancelUpdate none 9 cancelledAppt) ∧
     (cancelUpdate none 9 cancelledAppt).cancelledAt = some 9) :=
  ⟨(c9_cancel_idempotence_split [cancelledAppt] "APPT-202601-0001" none 9
      cancelledAppt).1 (by decide) (by decide),
   (c9_cancel_idempotence_split [cancelledAppt] "APPT-202601-0001" none 9
      cancelledAppt).2 (by decide)⟩

/-- C3 counterexample: the claim requires that rescheduling an active
appointment onto slots overlapping only its OWN current interval succeeds.
In `ledPhys` the target is the only record (so the only possible conflict is
with itself), yet moving it from 10:00 to 10:30 — inside its own
[10:00, 10:45) interval — fails with the slot-unavailable error: the check
does not exclude the record being rescheduled. -/
theorem c3_counterexample_self_conflict :
    (∀ x ∈ ledPhys, x.bookingId = "APPT-202601-0001") ∧
    rescheduleTool schGrid ledPhys "APPT-202601-0001" 100 630 7 =
      (ReschedOutcome.slotUnavailable, ledPhys) := by decide

/-- C3 (amended): the reschedule availability check runs over the whole
ledger WITHOUT excluding the record being rescheduled, so whenever the
point-check fails — including when the only conflict is the target's own
current interval — the operation fails with the slot-unavailable error and
leaves the ledger unchanged. -/
theorem c3_reschedule_no_self_exclusion (sch : Schedule)
    (led : List Appointment) (bid : String) (newDate newS now : Nat)
    (a : Appointment) (t : AppointmentType)
    (hf : led.find? (fun x => x.bookingId == bid) = some a)
    (ha : a.status ≠ "cancelled")
    (ht : lookupType sch a.apptType = some t)
    (hc : isSlotAvailable sch led newDate newS t.slotsRequired = false) :
    rescheduleTool sch led bid newDate newS now =
      (ReschedOutcome.slotUnavailable, led) := by
  simp [rescheduleTool, hf, ht, hc, ha]

/-- C3 witness: rescheduling the lone physical booking onto its own start
time 10:00 self-conflicts and fails. -/
theorem c3_reschedule_no_self_exclusion_witness :
    rescheduleTool schGrid ledPhys "APPT-202601-0001" 100 600 8 =
      (ReschedOutcome.slotUnavailable, ledPhys) :=
  c3_reschedule_no_self_exclusion schGrid ledPhys "APPT-202601-0001" 100 600 8
    apptPhys { duration := 45, slotsRequired := 2 }
    (by decide) (by decide) (by decide) (by decide)

/-- C10 witness: booking a consultation at 23:00 on day 3 (a closed weekday
of `schGrid`) from the empty ledger succeeds with a confirmed record. -/
theorem c10_book_accepts_arbitrary_times_witness :
    ∃ resp led1,
      bookMock schGrid [] "consultation" 3 1380 patA "checkup" envA =
        Except.ok (resp, led1) ∧
      resp.status = "confirmed" ∧
      resp.bookingId = mkBookingId envA.monthTag 0 ∧
      resp.confirmationCode = envA.code ∧
      led1 = [resp.details] ∧
      resp.details.status = "confirmed" ∧
      resp.details.date = 3 ∧ resp.details.startTime = 1380 :=
  c10_book_accepts_arbitrary_times schGrid "consultation"
    { duration := 30, slotsRequired := 1 } 3 1380 patA "checkup" envA (by decide)

/-- C7: the adapter mode state machine.  (1) Starting from the fresh MOCK
state, a failed or erroring initial probe (or missing credentials) yields
MOCK, never FALLBACK.  (2) A REAL-mode `get_availability`/`book` operation
hit by a provider error latches the mode to FALLBACK and returns the mock
outcome for the same request, so the caller never sees the provider error.
(3) Once the (probed) adapter is in FALLBACK, any sequence of further
operations leaves it in FALLBACK and no response ever comes from the real
path. -/
theorem c7_adapter_mode_machine :
    ((initStep freshServiceState true none).mode = CalendlyMode.mock ∧
     (initStep freshServiceState true (some false)).mode = CalendlyMode.mock ∧
     (initStep freshServiceState false none).mode = CalendlyMode.mock) ∧
    (∀ (α : Type) (st : ServiceState) (mo : α), st.mode = CalendlyMode.real →
      serviceCall st none mo =
        ({ st with mode := CalendlyMode.fallback }, (false, mo))) ∧
    (∀ (α : Type) (st : ServiceState) (ops : List (AdapterOp α)),
      st.mode = CalendlyMode.fallback → st.inited = true →
      (runAdapter st ops).1.mode = CalendlyMode.fallback ∧
      ∀ r ∈ (runAdapter st ops).2, ∀ b x, r = some (b, x) → b = false) := by
  refine ⟨⟨rfl, rfl, rfl⟩, ?_, ?_⟩
  · intro α st mo h
    simp [serviceCall, h]
  · intro α st ops hm hi
    induction ops generalizing st with
    | nil => exact ⟨hm, by simp [runAdapter]⟩
    | cons op rest ih =>
      have hstep : (adapterStep st op).1.mode = CalendlyMode.fallback ∧
          (adapterStep st op).1.inited = true ∧
          (∀ b x, (adapterStep st op).2 = some (b, x) → b = false) := by
        cases op with
        | initOp c p => simp [adapterStep, initStep, hi, hm]
        | call ro mo => simp [adapterStep, serviceCall, hm, hi]
      obtain ⟨h1, h2, h3⟩ := hstep
      have hrest := ih (adapterStep st op).1 h1 h2
      refine ⟨by simpa [runAdapter] using hrest.1, ?_⟩
      intro r hr b x hrx
      simp only [runAdapter, List.mem_cons] at hr
      rcases hr with hr | hr
      · exact h3 b x (hr ▸ hrx)
      · exact hrest.2 r hr b x hrx

/-- C7 witness: a REAL-mode availability call with a provider error latches
to FALLBACK and serves the mock value 0; from FALLBACK, a run with a further
provider error, a re-initialization attempt, and a healthy real oracle stays
in FALLBACK and every response avoids the real path. -/
theorem c7_adapter_mode_machine_witness :
    serviceCall { mode := CalendlyMode.real, inited := true } none (0 : Nat) =
      ({ mode := CalendlyMode.fallback, inited := true }, (false, 0)) ∧
    ((runAdapter { mode := CalendlyMode.fallback, inited := true }
        [AdapterOp.call (some 7) 1, AdapterOp.initOp true (some true),
         AdapterOp.call none 2]).1.mode = CalendlyMode.fallback ∧
     ∀ r ∈ (runAdapter { mode := CalendlyMode.fallback, inited := true }
        [AdapterOp.call (some 7) 1, AdapterOp.initOp true (some true),
         AdapterOp.call none 2]).2, ∀ b x, r = some (b, x) → b = false) :=
  ⟨c7_adapter_mode_machine.2.1 Nat { mode := CalendlyMode.real, inited := true } 0 rfl,
   c7_adapter_mode_machine.2.2 Nat { mode := CalendlyMode.fallback, inited := true }
     [AdapterOp.call (some 7) 1, AdapterOp.initOp true (some true),
      AdapterOp.call none 2] rfl rfl⟩

theorem processLoopAux_runs (wt nt : Nat → LlmReply) :
    ∀ fuel iters,
      (∀ j, iters < j → j ≤ iters + fuel →
        (wt j).toolCalls ≠ [] ∧ (nt j).toolCalls ≠ []) →
      processLoopAux wt nt fuel iters =
        AgentOutcome.maxIterationsReached apologyMessage (iters + fuel) := by
  intro fuel
  induction fuel with
  | zero => intro iters h; simp [processLoopAux]
  | succ n ih =>
    intro iters h
    have h1 := h (iters + 1) (by omega) (by omega)
    have e1 : (wt (iters + 1)).toolCalls.isEmpty = false := by
      rw [Bool.eq_false_iff]
      intro hh
      exact h1.1 (List.isEmpty_iff.mp hh)
    have e2 : (nt (iters + 1)).toolCalls.isEmpty = false := by
      rw [Bool.eq_false_iff]
      intro hh
      exact h1.2 (List.isEmpty_iff.mp hh)
    have hrec := ih (iters + 1) (fun j hj1 hj2 => h j (by omega) (by omega))
    calc processLoopAux wt nt (n + 1) iters
        = processLoopAux wt nt n (iters + 1) := by
          simp [processLoopAux, e1, e2]
      _ = AgentOutcome.maxIterationsReached apologyMessage (iters + (n + 1)) := by
          rw [hrec]; congr 1; omega

theorem processLoopAux_final (wt nt : Nat → LlmReply) :
    ∀ fuel iters i, iters < i → i ≤ iters + fuel →
      (∀ j, iters < j → j < i → (wt j).toolCalls ≠ [] ∧ (nt j).toolCalls ≠ []) →
      (wt i).toolCalls = [] →
      processLoopAux wt nt fuel iters = AgentOutcome.finalDirect (wt i).content i := by
  intro fuel
  induction fuel with
  | zero => intro iters i h1 h2 _ _; omega
  | succ n ih =>
    intro iters i h1 h2 hpre hi
    by_cases hEq : i = iters + 1
    · subst hEq
      have e1 : (wt (iters + 1)).toolCalls.isEmpty = true := by
        simp [List.isEmpty_iff, hi]
      simp [processLoopAux, e1]
    · have hj := hpre (iters + 1) (by omega) (by omega)
      have e1 : (wt (iters + 1)).toolCalls.isEmpty = false := by
        rw [Bool.eq_false_iff]
        intro hh
        exact hj.1 (List.isEmpty_iff.mp hh)
      have e2 : (nt (iters + 1)).toolCalls.isEmpty = false := by
        rw [Bool.eq_false_iff]
        intro hh
        exact hj.2 (List.isEmpty_iff.mp hh)
      calc processLoopAux wt nt (n + 1) iters
          = processLoopAux wt nt n (iters + 1) := by
            simp [processLoopAux, e1, e2]
        _ = AgentOutcome.finalDirect (wt i).content i :=
            ih (iters + 1) i (by omega) (by omega)
              (fun j a b => hpre j (by omega) b) hi

/-- C8: the per-message loop is bounded by exactly 5 rounds.  If every round
1..5 replies with tool calls and no wrap-up is tool-free, `process_message`
returns (without raising) the fixed apology with the
max-iterations-reached metadata after 5 iterations; conversely the first
round `i ≤ 5` whose tool-schema reply is tool-free ends the loop immediately
with that reply as final. -/
theorem c8_bounded_loop (wt nt : Nat → LlmReply) :
    ((∀ j, 1 ≤ j → j ≤ 5 → (wt j).toolCalls ≠ [] ∧ (nt j).toolCalls ≠ []) →
      processMessage wt nt =
        AgentOutcome.maxIterationsReached apologyMessage 5) ∧
    (∀ i, 1 ≤ i → i ≤ 5 →
      (∀ j, 1 ≤ j → j < i → (wt j).toolCalls ≠ [] ∧ (nt j).toolCalls ≠ []) →
      (wt i).toolCalls = [] →
      processMessage wt nt = AgentOutcome.finalDirect (wt i).content i) := by
  constructor
  · intro h
    have hr := processLoopAux_runs wt nt 5 0 (fun j hj1 hj2 => h j (by omega) (by omega))
    simpa [processMessage, maxIterationsBound] using hr
  · intro i h1 h2 hpre hi
    have hr := processLoopAux_final wt nt 5 0 i (by omega) (by omega)
      (fun j a b => hpre j (by omega) b) hi
    simpa [processMessage, maxIterationsBound] using hr

/-- C8 witness: a model that always requests a tool ends after 5 rounds with
the apology and max-iterations outcome; a model whose first reply is
tool-free ends round 1 with that reply. -/
theorem c8_bounded_loop_witness :
    processMessage (fun _ => { content := "", toolCalls := ["check_availability"] })
        (fun _ => { content := "", toolCalls := ["check_availability"] }) =
      AgentOutcome.maxIterationsReached apologyMessage 5 ∧
    processMessage (fun _ => { content := "done", toolCalls := [] })
        (fun _ => { content := "", toolCalls := [] }) =
      AgentOutcome.finalDirect "done" 1 :=
  ⟨(c8_bounded_loop _ _).1 (fun j hj1 hj2 => ⟨by simp, by simp⟩),
   (c8_bounded_loop _ _).2 1 (by omega) (by omega) (fun j a b => by omega) rfl⟩

/-- C5 counterexample: the claim quantifies over every weekday configuration,
but with working hours 23:10-23:30 and a 50-minute granularity the
generator's `datetime + timedelta` arithmetic wraps past midnight: the
emitted grid contains 23:10 (whose occupied interval overruns closing) and
even 00:00-side slots such as 0, which lie entirely outside the working
hours. -/
theorem c5_counterexample_midnight_wrap :
    whMid.lunch = none ∧ whMid.startMin = 1390 ∧ whMid.endMin = 1410 ∧
    schMidnight.slotDuration = 50 ∧
    1390 ∈ generateTimeSlots schMidnight whMid ∧
    ¬ (1390 + schMidnight.slotDuration ≤ whMid.endMin) ∧
    0 ∈ generateTimeSlots schMidnight whMid ∧
    ¬ (whMid.startMin ≤ 0) := by decide

theorem genSlotsAux_sound_none (g endMin lb : Nat) (he : endMin + g < 1440) :
    ∀ fuel c, lb ≤ c → c + g < 1440 →
      ∀ s ∈ genSlotsAux g endMin none fuel c, lb ≤ s ∧ s + g ≤ endMin := by
  intro fuel
  induction fuel with
  | zero => intro c _ _ s hs; simp [genSlotsAux] at hs
  | succ n ih =>
    intro c hlb hcg s hs
    have hnext : addMinutesToTime c g = c + g := Nat.mod_eq_of_lt hcg
    simp only [genSlotsAux, hnext] at hs
    by_cases hbr : endMin < c + g
    · simp [hbr] at hs
    · rw [if_neg hbr] at hs
      rcases List.mem_cons.mp hs with rfl | hs
      · exact ⟨hlb, by omega⟩
      · exact ih (c + g) (by omega) (by omega) s hs

theorem genSlotsAux_sound_some (g endMin lb ls le : Nat) (he : endMin + g < 1440)
    (hlw : le + g < 1440) :
    ∀ fuel c, lb ≤ c → c + g < 1440 →
      ∀ s ∈ genSlotsAux g endMin (some (ls, le)) fuel c,
        lb ≤ s ∧ s + g ≤ endMin ∧ (s + g ≤ ls ∨ le ≤ s) := by
  intro fuel
  induction fuel with
  | zero => intro c _ _ s hs; simp [genSlotsAux] at hs
  | succ n ih =>
    intro c hlb hcg s hs
    have hnext : addMinutesToTime c g = c + g := Nat.mod_eq_of_lt hcg
    simp only [genSlotsAux, hnext] at hs
    by_cases hbr : endMin < c + g
    · simp [hbr] at hs
    · rw [if_neg hbr] at hs
      by_cases hj : (!(decide (le ≤ c) || decide (c + g ≤ ls))) = true
      · rw [if_pos hj] at hs
        have hc : ¬ le ≤ c ∧ ¬ c + g ≤ ls := by simpa using hj
        exact ih le (by omega) (by omega) s hs
      · rw [if_neg hj] at hs
        have himp : c < le → c + g ≤ ls := by simpa using hj
        have hjj : le ≤ c ∨ c + g ≤ ls := by
          rcases Nat.lt_or_ge c le with h1 | h1
          · exact Or.inr (himp h1)
          · exact Or.inl h1
        rcases List.mem_cons.mp hs with rfl | hs
        · exact ⟨hlb, by omega, by omega⟩
        · exact ih (c + g) (by omega) (by omega) s hs

/-- C5 (amended): provided no candidate's slot arithmetic crosses midnight
(opening, closing and lunch-end each at least one granularity before
midnight — true of every realistic clinic schedule, and of the concrete
scenario), every slot emitted by the generator has its occupied interval
[start, start+slot_duration) within working hours and disjoint from the
lunch interval; and the concrete Monday 09:00-17:00 grid with lunch
12:00-13:00 contains 11:30 and 13:00 but not 12:00 or 12:30. -/
theorem c5_slot_grid_in_hours (sch : Schedule) (wh : WorkingHours)
    (hs0 : wh.startMin + sch.slotDuration < 1440)
    (he : wh.endMin + sch.slotDuration < 1440)
    (hl : ∀ ls le, wh.lunch = some (ls, le) → le + sch.slotDuration < 1440) :
    (∀ s ∈ generateTimeSlots sch wh,
      wh.startMin ≤ s ∧ s + sch.slotDuration ≤ wh.endMin ∧
      ∀ ls le, wh.lunch = some (ls, le) →
        s + sch.slotDuration ≤ ls ∨ le ≤ s) ∧
    (690 ∈ generateTimeSlots schGrid whMon ∧ 780 ∈ generateTimeSlots schGrid whMon ∧
     720 ∉ generateTimeSlots schGrid whMon ∧ 750 ∉ generateTimeSlots schGrid whMon) := by
  refine ⟨?_, by decide⟩
  intro s hs
  unfold generateTimeSlots at hs
  rcases hL : wh.lunch with _ | ⟨ls, le⟩
  · rw [hL] at hs
    have hres := genSlotsAux_sound_none sch.slotDuration wh.endMin wh.startMin he
      genFuel wh.startMin le_rfl hs0 s hs
    exact ⟨hres.1, hres.2, fun ls' le' h => by cases h⟩
  · rw [hL] at hs
    have hres := genSlotsAux_sound_some sch.slotDuration wh.endMin wh.startMin ls le
      he (hl ls le hL) genFuel wh.startMin le_rfl hs0 s hs
    refine ⟨hres.1, hres.2.1, fun ls' le' h => ?_⟩
    simp only [Option.some.injEq, Prod.mk.injEq] at h
    obtain ⟨rfl, rfl⟩ := h
    exact hres.2.2

/-- C5 witness: the amended theorem instantiated at the concrete Monday
schedule (no midnight crossing), giving both the general containment and the
11:30 / 13:00 / 12:00 / 12:30 facts. -/
theorem c5_slot_grid_in_hours_witness :
    (∀ s ∈ generateTimeSlots schGrid whMon,
      whMon.startMin ≤ s ∧ s + schGrid.slotDuration ≤ whMon.endMin ∧
      ∀ ls le, whMon.lunch = some (ls, le) →
        s + schGrid.slotDuration ≤ ls ∨ le ≤ s) ∧
    (690 ∈ generateTimeSlots schGrid whMon ∧ 780 ∈ generateTimeSlots schGrid whMon ∧
     720 ∉ generateTimeSlots schGrid whMon ∧ 750 ∉ generateTimeSlots schGrid whMon) :=
  c5_slot_grid_in_hours schGrid whMon (by decide) (by decide)
    (fun ls le h => by
      simp only [whMon, Option.some.injEq, Prod.mk.injEq] at h
      obtain ⟨rfl, rfl⟩ := h
      decide)

theorem lookupType_mem (sch : Schedule) (ty : String) (t : AppointmentType) :
    lookupType sch ty = some t → ∃ p ∈ sch.appointmentTypes, p.2 = t := by
  unfold lookupType
  cases hf : sch.appointmentTypes.find? (fun p => p.1 == ty) with
  | none => simp
  | some p =>
    intro h
    simp only [Option.map_some', Option.some.injEq] at h
    exact ⟨p, List.mem_of_find?_eq_some hf, h⟩

theorem startFits_spec {g : Nat} {t : AppointmentType} {s : Nat}
    (h : startFits g t s = true) :
    s % g = 0 ∧ s + t.slotsRequired * g ≤ 1440 ∧ s + t.duration < 1440 := by
  simpa [startFits, and_assoc] using h

theorem typeFits_spec {g : Nat} {t : AppointmentType} (h : typeFits g t = true) :
    0 < t.duration ∧ t.duration ≤ t.slotsRequired * g := by
  simpa [typeFits] using h

theorem schedTypesOK_lookup {sch : Schedule} {ty : String} {t : AppointmentType}
    (h : schedTypesOK sch = true) (hl : lookupType sch ty = some t) :
    0 < t.duration ∧ t.duration ≤ t.slotsRequired * sch.slotDuration := by
  obtain ⟨p, hp, hpt⟩ := lookupType_mem sch ty t hl
  have := List.all_eq_true.mp h p hp
  simp only at this
  exact hpt ▸ typeFits_spec this

theorem disjoint_of_points_free (g : Nat) (hg : 0 < g) (s dnew N : Nat)
    (a : Appointment)
    (hsg : s % g = 0) (hfit : s + N * g ≤ 1440) (hd : 0 < dnew)
    (hdN : dnew ≤ N * g)
    (hag : a.startTime % g = 0) (hae : a.startTime < a.endTime)
    (haend : a.endTime ≤ 1440)
    (hfree : ∀ i < N, ¬(a.startTime ≤ addMinutesToTime s (i * g) ∧
                        addMinutesToTime s (i * g) < a.endTime)) :
    a.endTime ≤ s ∨ s + dnew ≤ a.startTime := by
  by_contra hcon
  push_neg at hcon
  obtain ⟨h1, h2⟩ := hcon
  have hN : 0 < N := by
    rcases Nat.eq_zero_or_pos N with h | h
    · subst h; simp at hdN; omega
    · exact h
  have hNg : 1 * g ≤ N * g := Nat.mul_le_mul_right g hN
  rcases Nat.lt_or_ge s a.startTime with hlt | hge
  · have hdvd : g ∣ (a.startTime - s) :=
      Nat.dvd_sub' (Nat.dvd_of_mod_eq_zero hag) (Nat.dvd_of_mod_eq_zero hsg)
    obtain ⟨k, hk⟩ := hdvd
    have hcomm : g * k = k * g := Nat.mul_comm g k
    have hk1 : 1 ≤ k := by
      rcases Nat.eq_zero_or_pos k with rfl | hpos
      · simp at hk
        omega
      · exact hpos
    have hkN : k < N := by
      by_contra hge2
      push_neg at hge2
      have hmul : N * g ≤ k * g := Nat.mul_le_mul_right g hge2
      omega
    have hkg : k * g ≤ N * g := Nat.mul_le_mul_right g (Nat.le_of_lt hkN)
    have hpoint : addMinutesToTime s (k * g) = a.startTime := by
      unfold addMinutesToTime
      have hsum : s + k * g = a.startTime := by omega
      rw [hsum]
      exact Nat.mod_eq_of_lt (by omega)
    exact hfree k hkN (by rw [hpoint]; exact ⟨le_rfl, hae⟩)
  · have h0 := hfree 0 hN
    have hp0 : addMinutesToTime s (0 * g) = s := by
      unfold addMinutesToTime
      simp only [Nat.zero_mul, Nat.add_zero]
      exact Nat.mod_eq_of_lt (by omega)
    exact h0 (by rw [hp0]; exact ⟨hge, h1⟩)

theorem mem_updateFirst (p : Appointment → Bool) (f : Appointment → Appointment) :
    ∀ (l : List Appointment) (x : Appointment),
      x ∈ updateFirst p f l → x ∈ l ∨ ∃ y ∈ l, x = f y := by
  intro l
  induction l with
  | nil => intro x hx; simp [updateFirst] at hx
  | cons b rest ih =>
    intro x hx
    by_cases hb : p b = true
    · simp only [updateFirst, if_pos hb, List.mem_cons] at hx
      rcases hx with rfl | hx
      · exact Or.inr ⟨b, List.mem_cons_self b rest, rfl⟩
      · exact Or.inl (List.mem_cons_of_mem b hx)
    · simp only [updateFirst, if_neg hb, List.mem_cons] at hx
      rcases hx with rfl | hx
      · exact Or.inl (List.mem_cons_self x rest)
      · rcases ih x hx with h | ⟨y, hy, rfl⟩
        · exact Or.inl (List.mem_cons_of_mem b h)
        · exact Or.inr ⟨y, List.mem_cons_of_mem b hy, rfl⟩

theorem cancelUpdate_status (reason : Option String) (now : Nat) (a : Appointment) :
    (cancelUpdate reason now a).status = "cancelled" := by
  cases reason <;> rfl

theorem disjointAppts_symm : ∀ {a b : Appointment},
    disjointAppts a b → disjointAppts b a := by
  intro a b h hb ha hd
  rcases h ha hb hd.symm with h1 | h1
  · exact Or.inr h1
  · exact Or.inl h1

theorem ledgerInv_updateFirst_cancel (g : Nat) (p : Appointment → Bool)
    (reason : Option String) (now : Nat) :
    ∀ l : List Appointment, (∀ a ∈ l, wfAppt g a) → l.Pairwise disjointAppts →
      (∀ a ∈ updateFirst p (cancelUpdate reason now) l, wfAppt g a) ∧
      (updateFirst p (cancelUpdate reason now) l).Pairwise disjointAppts := by
  intro l
  induction l with
  | nil => intro _ _; simp [updateFirst]
  | cons b rest ih =>
    intro hwf hpair
    rw [List.pairwise_cons] at hpair
    obtain ⟨hb_rest, hrest⟩ := hpair
    by_cases hb : p b = true
    · simp only [updateFirst, if_pos hb]
      constructor
      · intro a ha
        rcases List.mem_cons.mp ha with rfl | ha
        · intro hst
          exact absurd (cancelUpdate_status reason now b) hst
        · exact hwf a (List.mem_cons_of_mem b ha)
      · rw [List.pairwise_cons]
        refine ⟨fun x hx => ?_, hrest⟩
        intro hst
        exact absurd (cancelUpdate_status reason now b) hst
    · simp only [updateFirst, if_neg hb]
      have hih := ih (fun a ha => hwf a (List.mem_cons_of_mem b ha)) hrest
      constructor
      · intro a ha
        rcases List.mem_cons.mp ha with rfl | ha
        · exact hwf a (List.mem_cons_self a rest)
        · exact hih.1 a ha
      · rw [List.pairwise_cons]
        refine ⟨fun x hx => ?_, hih.2⟩
        rcases mem_updateFirst _ _ rest x hx with hmem | ⟨y, hy, rfl⟩
        · exact hb_rest x hmem
        · intro h1 h2
          exact absurd (cancelUpdate_status reason now y) h2

theorem ledgerInv_updateFirst_move (g : Nat) (p : Appointment → Bool)
    (upd : Appointment → Appointment) (newDate newS newEnd : Nat)
    (hupd : ∀ x, (upd x).date = newDate ∧ (upd x).startTime = newS ∧
                 (upd x).endTime = newEnd ∧ (upd x).status = x.status)
    (hwfnew : newS % g = 0 ∧ newS < newEnd ∧ newEnd ≤ 1440) :
    ∀ l : List Appointment, (∀ a ∈ l, wfAppt g a) → l.Pairwise disjointAppts →
      (∀ x ∈ l, x.status ≠ "cancelled" → x.date = newDate →
        newEnd ≤ x.startTime ∨ x.endTime ≤ newS) →
      (∀ a ∈ updateFirst p upd l, wfAppt g a) ∧
      (updateFirst p upd l).Pairwise disjointAppts := by
  intro l
  induction l with
  | nil => intro _ _ _; simp [updateFirst]
  | cons b rest ih =>
    intro hwf hpair hsep
    rw [List.pairwise_cons] at hpair
    obtain ⟨hb_rest, hrest⟩ := hpair
    have hwfu : ∀ x, wfAppt g (upd x) := by
      intro x _
      obtain ⟨_, h2, h3, _⟩ := hupd x
      rw [h2, h3]
      exact hwfnew
    by_cases hb : p b = true
    · simp only [updateFirst, if_pos hb]
      constructor
      · intro a ha
        rcases List.mem_cons.mp ha with rfl | ha
        · exact hwfu b
        · exact hwf a (List.mem_cons_of_mem b ha)
      · rw [List.pairwise_cons]
        refine ⟨fun x hx => ?_, hrest⟩
        intro h1 h2 h3
        obtain ⟨hd, hst, hen, _⟩ := hupd b
        rw [hst, hen]
        rw [hd] at h3
        exact hsep x (List.mem_cons_of_mem b hx) h2 h3.symm
    · simp only [updateFirst, if_neg hb]
      have hih := ih (fun a ha => hwf a (List.mem_cons_of_mem b ha)) hrest
        (fun x hx => hsep x (List.mem_cons_of_mem b hx))
      constructor
      · intro a ha
        rcases List.mem_cons.mp ha with rfl | ha
        · exact hwf a (List.mem_cons_self a rest)
        · exact hih.1 a ha
      · rw [List.pairwise_cons]
        refine ⟨fun x hx => ?_, hih.2⟩
        rcases mem_updateFirst _ _ rest x hx with hmem | ⟨y, hy, rfl⟩
        · exact hb_rest x hmem
        · intro h1 h2 h3
          obtain ⟨hd, hst, hen, _⟩ := hupd y
          rw [hst, hen]
          rw [hd] at h3
          rcases hsep b (List.mem_cons_self b rest) h1 h3 with hx1 | hx1
          · exact Or.inr hx1
          · exact Or.inl hx1

theorem ledgerInv_book_step (sch : Schedule)
    (hg : 0 < sch.slotDuration) (htyOK : schedTypesOK sch = true)
    (led : List Appointment) (hinv : ledgerInv sch.slotDuration led)
    (ty : String) (d s : Nat) (patient : PatientInfo) (reason : String)
    (env : BookingEnv)
    (hfit : opFits sch (LedgerOp.book ty d s patient reason env) = true) :
    ledgerInv sch.slotDuration
      (applyOp sch led (LedgerOp.book ty d s patient reason env)) := by
  unfold applyOp
  cases hty : lookupType sch ty with
  | none => simp only [bookMock, hty]; exact hinv
  | some t =>
    cases hav : isSlotAvailable sch led d s t.slotsRequired with
    | false => simp only [bookMock, hty, hav, Bool.not_false, if_true]; exact hinv
    | true =>
      have hfit' : startFits sch.slotDuration t s = true := by
        simpa [opFits, hty] using hfit
      obtain ⟨hsg, hNfit, hdur⟩ := startFits_spec hfit'
      obtain ⟨hdpos, hdN⟩ := schedTypesOK_lookup htyOK hty
      have hspec := (isSlotAvailable_iff_spec sch led d s t.slotsRequired).mp hav
      have hend : addMinutesToTime s t.duration = s + t.duration :=
        Nat.mod_eq_of_lt (by omega)
      simp only [bookMock, hty, hav, Bool.not_true, if_false, Bool.false_eq_true,
        ite_false]
      constructor
      · intro a ha
        rcases List.mem_append.mp ha with ha | ha
        · exact hinv.1 a ha
        · rcases List.mem_singleton.mp ha with rfl
          intro _
          refine ⟨hsg, ?_, ?_⟩
          · simpa [hend] using (by omega : s < s + t.duration)
          · simpa [hend] using (by omega : s + t.duration ≤ 1440)
      · rw [List.pairwise_append]
        refine ⟨hinv.2, by simp, ?_⟩
        intro a ha b hb
        rcases List.mem_singleton.mp hb with rfl
        intro haact hbact hdate
        have hdate' : a.date = d := hdate
        have hfree : ∀ i < t.slotsRequired,
            ¬(a.startTime ≤ addMinutesToTime s (i * sch.slotDuration) ∧
              addMinutesToTime s (i * sch.slotDuration) < a.endTime) :=
          fun i hi => hspec i hi a ha hdate' haact
        obtain ⟨hag, hae, haend⟩ := hinv.1 a ha haact
        have hdis := disjoint_of_points_free sch.slotDuration hg s t.duration
          t.slotsRequired a hsg hNfit hdpos hdN hag hae haend hfree
        rcases hdis with h | h
        · exact Or.inl h
        · refine Or.inr ?_
          simpa [hend] using h

theorem ledgerInv_cancel_step (sch : Schedule) (led : List Appointment)
    (hinv : ledgerInv sch.slotDuration led) (bid : String)
    (reason : Option String) (now : Nat) :
    ledgerInv sch.slotDuration
      (applyOp sch led (LedgerOp.cancel bid reason now)) := by
  unfold applyOp cancelService
  by_cases h : led.any (fun a => a.bookingId == bid) = true
  · simp only [h, if_true]
    exact ledgerInv_updateFirst_cancel sch.slotDuration _ reason now led
      hinv.1 hinv.2
  · simp only [h]
    simpa using hinv

theorem ledgerInv_resched_step (sch : Schedule)
    (hg : 0 < sch.slotDuration) (htyOK : schedTypesOK sch = true)
    (led : List Appointment) (hinv : ledgerInv sch.slotDuration led)
    (bid : String) (newDate newS now : Nat)
    (hfit : opFits sch (LedgerOp.resched bid newDate newS now) = true) :
    ledgerInv sch.slotDuration
      (applyOp sch led (LedgerOp.resched bid newDate newS now)) := by
  show ledgerInv sch.slotDuration (rescheduleTool sch led bid newDate newS now).2
  unfold rescheduleTool
  split
  · exact hinv
  next a hfind =>
    split
    · exact hinv
    next hst =>
      split
      · exact hinv
      next t hty =>
        split
        · exact hinv
        next hchkneg =>
          have hchk : isSlotAvailable sch led newDate newS t.slotsRequired = true := by
            simpa using hchkneg
          obtain ⟨p, hp, hpt⟩ := lookupType_mem sch a.apptType t hty
          have hall : ∀ (x : String) (b : AppointmentType),
              (x, b) ∈ sch.appointmentTypes →
              startFits sch.slotDuration b newS = true := by
            simpa [opFits] using hfit
          have hfits : startFits sch.slotDuration t newS = true := by
            obtain ⟨x, b⟩ := p
            simp only at hpt
            exact hpt ▸ hall x b hp
          obtain ⟨hsg, hNfit, hdur⟩ := startFits_spec hfits
          obtain ⟨hdpos, hdN⟩ := schedTypesOK_lookup htyOK hty
          have hspec := (isSlotAvailable_iff_spec sch led newDate newS
            t.slotsRequired).mp hchk
          have hend : addMinutesToTime newS t.duration = newS + t.duration :=
            Nat.mod_eq_of_lt (by omega)
          have hsep : ∀ x ∈ led, x.status ≠ "cancelled" → x.date = newDate →
              addMinutesToTime newS t.duration ≤ x.startTime ∨
              x.endTime ≤ newS := by
            intro x hx hxa hxd
            have hfree : ∀ i < t.slotsRequired,
                ¬(x.startTime ≤ addMinutesToTime newS (i * sch.slotDuration) ∧
                  addMinutesToTime newS (i * sch.slotDuration) < x.endTime) :=
              fun i hi => hspec i hi x hx hxd hxa
            obtain ⟨hag, hae, haend⟩ := hinv.1 x hx hxa
            have hdis := disjoint_of_points_free sch.slotDuration hg newS
              t.duration t.slotsRequired x hsg hNfit hdpos hdN hag hae haend hfree
            rcases hdis with h | h
            · exact Or.inr h
            · refine Or.inl ?_
              simpa [hend] using h
          exact ledgerInv_updateFirst_move sch.slotDuration _
            (reschedUpdate newDate newS (addMinutesToTime newS t.duration) now)
            newDate newS (addMinutesToTime newS t.duration)
            (fun x => ⟨rfl, rfl, rfl, rfl⟩)
            ⟨hsg, by rw [hend]; omega, by rw [hend]; omega⟩
            led hinv.1 hinv.2 hsep

theorem runOps_ledgerInv (sch : Schedule) (hg : 0 < sch.slotDuration)
    (htyOK : schedTypesOK sch = true) :
    ∀ (ops : List LedgerOp) (led : List Appointment),
      ledgerInv sch.slotDuration led → opsFit sch ops = true →
      ledgerInv sch.slotDuration (ops.foldl (applyOp sch) led) := by
  intro ops
  induction ops with
  | nil => intro led h _; simpa using h
  | cons op rest ih =>
    intro led hinv hall
    rw [opsFit, List.all_cons, Bool.and_eq_true] at hall
    rw [List.foldl_cons]
    refine ih (applyOp sch led op) ?_ hall.2
    cases op with
    | book ty d s patient reason env =>
      exact ledgerInv_book_step sch hg htyOK led hinv ty d s patient reason env hall.1
    | cancel bid reason now =>
      exact ledgerInv_cancel_step sch led hinv bid reason now
    | resched bid newDate newS now =>
      exact ledgerInv_resched_step sch hg htyOK led hinv bid newDate newS now hall.1

/-- C1 (amended): starting from the empty ledger, any sequence of mock-path
book, cancel and reschedule operations whose start times lie on the global
slot grid and fit within the day (and whose catalog types have positive
durations fitting in their slot blocks) maintains the core safety invariant:
all pairs of distinct non-cancelled appointments on the same date have
non-overlapping [start,end) intervals; moreover the availability check at
any booked active appointment's exact start time reports unavailable for
every positive slot count. -/
theorem c1_ledger_safety (sch : Schedule) (ops : List LedgerOp)
    (hg : 0 < sch.slotDuration) (htyOK : schedTypesOK sch = true)
    (hops : opsFit sch ops = true) :
    (∀ a ∈ runOps sch ops, ∀ b ∈ runOps sch ops, a ≠ b →
      a.status ≠ "cancelled" → b.status ≠ "cancelled" → a.date = b.date →
      a.endTime ≤ b.startTime ∨ b.endTime ≤ a.startTime) ∧
    (∀ a ∈ runOps sch ops, a.status ≠ "cancelled" → ∀ n, 0 < n →
      isSlotAvailable sch (runOps sch ops) a.date a.startTime n = false) := by
  have hinv : ledgerInv sch.slotDuration (runOps sch ops) :=
    runOps_ledgerInv sch hg htyOK ops [] ⟨by simp, List.Pairwise.nil⟩ hops
  constructor
  · intro a ha b hb hne h1 h2 h3
    exact List.Pairwise.forall (fun x y h => disjointAppts_symm h) hinv.2
      ha hb hne h1 h2 h3
  · intro a ha hact n hn
    obtain ⟨hag, hae, haend⟩ := hinv.1 a ha hact
    cases hb : isSlotAvailable sch (runOps sch ops) a.date a.startTime n with
    | false => rfl
    | true =>
      have hsp := (isSlotAvailable_iff_spec sch (runOps sch ops) a.date
        a.startTime n).mp hb 0 hn a ha rfl hact
      have hp : addMinutesToTime a.startTime (0 * sch.slotDuration) =
          a.startTime := by
        unfold addMinutesToTime
        simp only [Nat.zero_mul, Nat.add_zero]
        exact Nat.mod_eq_of_lt (by omega)
      exact absurd (by rw [hp]; exact ⟨le_rfl, hae⟩) hsp

/-- C1 counterexample: the claim quantifies over ALL `HH:MM` start times,
but the conflict check only tests grid-spaced points.  Booking a 30-minute
consultation at 10:00 and then one at the off-grid time 09:45 both succeed,
leaving two confirmed appointments on the same date whose intervals
[10:00, 10:30) and [09:45, 10:15) overlap — the invariant is violated. -/
theorem c1_counterexample_offgrid_overlap :
    (runOps schGrid
      [LedgerOp.book "consultation" 100 600 patA "r1" envA,
       LedgerOp.book "consultation" 100 585 patA "r2" envB]).map
        (fun a => (a.startTime, a.endTime, a.status, a.date)) =
      [(600, 630, "confirmed", 100), (585, 615, "confirmed", 100)] ∧
    ¬(630 ≤ 585 ∨ 615 ≤ 600) := by decide

/-- C1 witness: a concrete grid-aligned run (a consultation at 10:00 and a
physical at 11:00 on the same day) satisfies both invariant conclusions. -/
theorem c1_ledger_safety_witness :
    (∀ a ∈ runOps schGrid
        [LedgerOp.book "consultation" 100 600 patA "r1" envA,
         LedgerOp.book "physical" 100 660 patA "r2" envB],
      ∀ b ∈ runOps schGrid
        [LedgerOp.book "consultation" 100 600 patA "r1" envA,
         LedgerOp.book "physical" 100 660 patA "r2" envB], a ≠ b →
      a.status ≠ "cancelled" → b.status ≠ "cancelled" → a.date = b.date →
      a.endTime ≤ b.startTime ∨ b.endTime ≤ a.startTime) ∧
    (∀ a ∈ runOps schGrid
        [LedgerOp.book "consultation" 100 600 patA "r1" envA,
         LedgerOp.book "physical" 100 660 patA "r2" envB],
      a.status ≠ "cancelled" → ∀ n, 0 < n →
      isSlotAvailable schGrid
        (runOps schGrid
          [LedgerOp.book "consultation" 100 600 patA "r1" envA,
           LedgerOp.book "physical" 100 660 patA "r2" envB])
        a.date a.startTime n = false) :=
  c1_ledger_safety schGrid
    [LedgerOp.book "consultation" 100 600 patA "r1" envA,
     LedgerOp.book "physical" 100 660 patA "r2" envB]
    (by decide) (by decide) (by decide)
